import Mathlib

/-!
Shallow embedding of the POC-Customer-Portal-API core (ServiceM8-backed
customer portal): the external job client, the local cache repositories and
the booking / job / message services, together with theorems settling the
frozen claims about that code.

Conventions of the embedding:
* machine time is a natural number of milliseconds;
* MongoDB ObjectIds are natural numbers;
* JavaScript string-or-undefined values are `Option String`, and JavaScript
  truthiness on strings (empty string is falsy) is made explicit;
* asynchronous calls are explicit state passing; a thrown error is the
  `Except.error` branch carrying the error class that the source constructs;
* the external ServiceM8 system is a list of job records; a fetch that the
  HTTP client resolves to null (its 404 branch) is a failed lookup in that
  list, and external-write failures are explicit boolean inputs.
-/

namespace PortalSpec

deriving instance DecidableEq for Except

/-! ## JavaScript-style string helpers -/

/-- The digit-only normalization `s.replace(/\D/g, "")` used for phone
comparison in `ServiceM8Service.matchJobsToCustomer`. -/
def digitsOf (s : String) : String :=
  ⟨s.data.filter Char.isDigit⟩

/-- JavaScript `hay.includes(sub)`: substring containment. -/
def strIncludes (hay sub : String) : Bool :=
  (List.range (hay.data.length + 1)).any fun i => sub.data.isPrefixOf (hay.data.drop i)

/-- JavaScript `s.toLowerCase()`, character-wise. -/
def jsToLower (s : String) : String :=
  ⟨s.data.map Char.toLower⟩

/-- JavaScript `s.trim()`: strip whitespace from both ends. -/
def jsTrim (s : String) : String :=
  ⟨((s.data.dropWhile Char.isWhitespace).reverse.dropWhile Char.isWhitespace).reverse⟩

/-- JavaScript `a || b` on strings: the left operand unless it is falsy
(the empty string). -/
def jsOr (a b : String) : String :=
  if a = "" then b else a

/-- JavaScript `a || b` where `a` may be undefined. -/
def jsOrOpt (a : Option String) (b : String) : String :=
  match a with
  | none => b
  | some v => jsOr v b

/-- JavaScript truthiness filter on an optional string: `undefined` and the
empty string are falsy, so `if (x) out.f = x` keeps only non-empty values. -/
def truthy (s : Option String) : Option String :=
  match s with
  | none => none
  | some v => if v = "" then none else some v

/-! ## Generic stable insertion sort (models the Mongo `sort` stages) -/

/-- Insert an element into a list so that it lands before the first element
it compares `le` to. -/
def insertLe (le : α → α → Bool) (a : α) : List α → List α
  | [] => [a]
  | b :: l => if le a b then a :: b :: l else b :: insertLe le a l

/-- Stable insertion sort by a boolean comparison. -/
def sortByLe (le : α → α → Bool) : List α → List α
  | [] => []
  | a :: l => insertLe le a (sortByLe le l)

/-! ## Data model -/

/-- An external ServiceM8 job record (the fields of `ServiceM8Job` that the
core reads; the index-signature passthrough fields are not modelled). -/
structure SMJob where
  uuid : String
  active : Nat
  status : Option String
  job_address : Option String
  job_description : Option String
  scheduled_date : Option String
  job_contact_name : Option String
  job_contact_email : Option String
  job_contact_mobile : Option String
  generated_job_id : Option String
  company_uuid : Option String
deriving Repr, DecidableEq

/-- An external ServiceM8 company record. -/
structure SMCompany where
  uuid : String
  name : String
  email : Option String
  mobile : Option String
  address : Option String
  active : Nat
deriving Repr, DecidableEq

/-- A customer document (`ICustomer`): the declared type requires
`servicem8ClientUuid`, but `JobService.createJob` guards on it being falsy,
so it is embedded as optional. -/
structure Customer where
  id : Nat
  email : Option String
  phone : Option String
  firstName : Option String
  lastName : Option String
  address : Option String
  servicem8ClientUuid : Option String
deriving Repr, DecidableEq

/-- A locally cached job document (`IJob`). `scheduledDate` keeps the wire
string: the `new Date(...)` conversion is modelled as the identity on it. -/
structure JobRecord where
  id : Nat
  servicem8Uuid : String
  customerId : Nat
  jobNumber : Option String
  status : Option String
  jobAddress : Option String
  jobDescription : Option String
  scheduledDate : Option String
  contactName : Option String
  contactEmail : Option String
  contactPhone : Option String
  rawData : Option SMJob
  updatedAt : Nat
deriving Repr, DecidableEq

/-- Message sender tag. -/
inductive Sender where
  | customer
  | system
deriving Repr, DecidableEq

/-- A message document (`IMessage`, the generation keyed by ServiceM8 job
UUID). -/
structure Msg where
  id : Nat
  jobUuid : String
  customerId : Nat
  message : String
  senderType : Sender
  createdAt : Nat
deriving Repr, DecidableEq

/-- The error classes of `src/utils/errors.ts` that the embedded code
throws. -/
inductive ApiError where
  | validationError
  | forbidden
  | notFound
  | jobCreationError
  | jobUpdateError
  | jobDeletionError
  | upstreamError
deriving Repr, DecidableEq

/-- The HTTP status each error class surfaces with (from the constructors in
`src/utils/errors.ts`). -/
def ApiError.statusCode : ApiError → Nat
  | .validationError => 400
  | .forbidden => 403
  | .notFound => 404
  | .jobCreationError => 500
  | .jobUpdateError => 500
  | .jobDeletionError => 500
  | .upstreamError => 500

/-! ## External job client (`ServiceM8Service`) -/

/-- Outcome of one HTTP call against the external API: a payload, or an
axios error whose `error.response?.status` is the optional status (a
network-level failure has none). -/
inductive HttpOutcome (α : Type) where
  | success : α → HttpOutcome α
  | failure : Option Nat → HttpOutcome α
deriving Repr, DecidableEq

namespace ServiceM8

/-- `ServiceM8Service.getJobByUuid`, at the HTTP boundary: a 404 error
response is translated to `null` (here `none`); any other failure is
re-thrown as a generic fetch error. -/
def getJobByUuidHttp (resp : HttpOutcome SMJob) : Except ApiError (Option SMJob) :=
  match resp with
  | .success j => .ok (some j)
  | .failure s =>
    if s = some 404 then .ok none
    else .error .upstreamError

/-- The external system as a job store; a by-UUID fetch that resolves (i.e.
does not throw) yields the first record with that UUID, or `none` on 404. -/
def smFind (store : List SMJob) (uuid : String) : Option SMJob :=
  store.find? fun j => j.uuid == uuid

/-- `ServiceM8Service.matchJobsToCustomer`: case-insensitive trimmed email
equality, or digit-only phone substring containment, with JavaScript
truthiness guards on the job contact fields. -/
def matchJobsToCustomer (jobs : List SMJob) (email phone : String) : List SMJob :=
  let normalizedEmail := jsTrim (jsToLower email)
  let normalizedPhone := digitsOf phone
  jobs.filter fun job =>
    let emailMatch :=
      match job.job_contact_email with
      | none => false
      | some e =>
        let je := jsTrim (jsToLower e)
        je != "" && je == normalizedEmail
    let phoneMatch :=
      match job.job_contact_mobile with
      | none => false
      | some p =>
        let jp := digitsOf p
        jp != "" && strIncludes jp normalizedPhone
    emailMatch || phoneMatch

/-- The partial update payload a caller passes to the client
(`Partial<CreateJobPayload>` restricted to the fields the services send). -/
structure JobUpdatePayload where
  job_address : Option String
  job_description : Option String
  scheduled_date : Option String
  status : Option String
  company_uuid : Option String
  active : Option Nat
deriving Repr, DecidableEq

/-- The merge step of the full-payload generation of
`ServiceM8Service.updateJob`: re-read record spread-merged with the supplied
updates, the UUID forced, and `active` kept unless explicitly updated. -/
def mergeJob (existing : SMJob) (upd : JobUpdatePayload) : SMJob :=
  { uuid := existing.uuid
    active := upd.active.getD existing.active
    status := match upd.status with | some v => some v | none => existing.status
    job_address := match upd.job_address with | some v => some v | none => existing.job_address
    job_description :=
      match upd.job_description with | some v => some v | none => existing.job_description
    scheduled_date :=
      match upd.scheduled_date with | some v => some v | none => existing.scheduled_date
    job_contact_name := existing.job_contact_name
    job_contact_email := existing.job_contact_email
    job_contact_mobile := existing.job_contact_mobile
    generated_job_id := existing.generated_job_id
    company_uuid := match upd.company_uuid with | some v => some v | none => existing.company_uuid }

end ServiceM8

/-- Replace the first list element satisfying `p` by its image under `f`
(the one-document semantics of `findOneAndUpdate` / `save`). -/
def replaceFirst (p : α → Bool) (f : α → α) : List α → List α
  | [] => []
  | r :: rest => if p r then f r :: rest else r :: replaceFirst p f rest

/-- The external effect of posting a (full or partial) job payload to
`/job/:uuid.json`: the stored record with that UUID becomes the merge of its
previous value and the payload. -/
def smApplyUpdate (store : List SMJob) (uuid : String) (upd : ServiceM8.JobUpdatePayload) :
    List SMJob :=
  replaceFirst (fun j => j.uuid == uuid) (fun j => ServiceM8.mergeJob j upd) store

/-! ## Local repositories -/

namespace JobRepository

/-- The freshness window of the caching generation, in milliseconds. -/
def freshWindowMs : Nat := 5 * 60 * 1000

/-- Ascending comparison on optional scheduled dates, missing first. -/
def optStrLe (a b : Option String) : Bool :=
  match a, b with
  | none, _ => true
  | some _, none => false
  | some u, some v => decide (u ≤ v)

/-- The `sort (scheduledDate : -1)` order: descending, missing dates last. -/
def schedDescLe (a b : Option String) : Bool :=
  optStrLe b a

/-- `JobRepository.findRecentJobs`: records of this customer updated within
the window, sorted by scheduled date descending (missing dates last). -/
def findRecentJobs (db : List JobRecord) (customerId : Nat) (now : Nat) : List JobRecord :=
  sortByLe
    (fun a b => schedDescLe a.scheduledDate b.scheduledDate)
    (db.filter fun r => r.customerId == customerId && now - freshWindowMs ≤ r.updatedAt)

/-- The job fields written on every sync (`jobData` in
`BookingService.syncJobsToDatabase`); Mongoose timestamps set `updatedAt`. -/
def applyJobData (r : JobRecord) (j : SMJob) (customerId now : Nat) : JobRecord :=
  { r with
    servicem8Uuid := j.uuid
    customerId := customerId
    jobNumber := j.generated_job_id
    status := j.status
    jobAddress := j.job_address
    jobDescription := j.job_description
    scheduledDate := j.scheduled_date
    contactName := j.job_contact_name
    contactEmail := j.job_contact_email
    contactPhone := j.job_contact_mobile
    rawData := some j
    updatedAt := now }

/-- A fresh cache document created by an upserting sync; `nid` is the new
ObjectId. -/
def newJobRecord (nid : Nat) (j : SMJob) (customerId now : Nat) : JobRecord :=
  applyJobData
    { id := nid, servicem8Uuid := j.uuid, customerId := customerId, jobNumber := none,
      status := none, jobAddress := none, jobDescription := none, scheduledDate := none,
      contactName := none, contactEmail := none, contactPhone := none, rawData := none,
      updatedAt := now }
    j customerId now

/-- `JobRepository.upsertByServiceM8Uuid`: update the first document keyed
by the external UUID, or insert a new one. -/
def upsertByServiceM8Uuid (db : List JobRecord) (nid : Nat) (j : SMJob) (customerId now : Nat) :
    List JobRecord × JobRecord :=
  match db.find? (fun r => r.servicem8Uuid == j.uuid) with
  | some r0 =>
    (replaceFirst (fun r => r.servicem8Uuid == j.uuid) (fun r => applyJobData r j customerId now) db,
      applyJobData r0 j customerId now)
  | none =>
    (db ++ [newJobRecord nid j customerId now], newJobRecord nid j customerId now)

end JobRepository

namespace MessageRepository

/-- `MessageRepository.findByJobUuid` (and its lean-query variant used by
the service, which runs the same filter and ascending sort): the job
messages sorted by creation time, oldest first. -/
def findByJobUuid (msgs : List Msg) (jobUuid : String) : List Msg :=
  sortByLe (fun a b => a.createdAt ≤ b.createdAt)
    (msgs.filter fun m => m.jobUuid == jobUuid)

end MessageRepository

/-- The field refresh `getBookingById` applies to the cached record
(status, address, description, scheduled date, raw payload). -/
def refreshJobRecord (r : JobRecord) (fresh : SMJob) : JobRecord :=
  { r with
    status := fresh.status
    jobAddress := fresh.job_address
    jobDescription := fresh.job_description
    scheduledDate := fresh.scheduled_date
    rawData := some fresh }

/-! ## Booking service (caching generation) -/

namespace BookingService

/-- `BookingService.syncJobsToDatabase`: upsert every matched external job
into the cache, returning the new store and the saved documents in order.
New documents receive consecutive ObjectIds starting at `nid`. -/
def syncJobsToDatabase (db : List JobRecord) (nid : Nat) (jobs : List SMJob)
    (customerId now : Nat) : List JobRecord × List JobRecord :=
  match jobs with
  | [] => (db, [])
  | j :: rest =>
    let step := JobRepository.upsertByServiceM8Uuid db nid j customerId now
    let tail := syncJobsToDatabase step.1 (nid + 1) rest customerId now
    (tail.1, step.2 :: tail.2)

/-- Result of `BookingService.getAllBookings`: the cache store after the
call, the served job documents, and the served-from-cache marker. -/
structure BookingsResult where
  dbAfter : List JobRecord
  bookings : List JobRecord
  cached : Bool
deriving Repr, DecidableEq

/-- `BookingService.getAllBookings`: serve fresh cached records if any
exist, otherwise fetch the whole external collection, match it to the
customer by email/phone, upsert the matches and serve them. The summary
projection (`mapJobToSummary`) is a field selection and is left implicit. -/
def getAllBookings (db : List JobRecord) (nid : Nat) (ext : List SMJob) (now : Nat)
    (c : Customer) : BookingsResult :=
  let cachedJobs := JobRepository.findRecentJobs db c.id now
  if cachedJobs.length ≠ 0 then
    { dbAfter := db, bookings := cachedJobs, cached := true }
  else
    let customerJobs := ServiceM8.matchJobsToCustomer ext (c.email.getD "") (c.phone.getD "")
    let sync := syncJobsToDatabase db nid customerJobs c.id now
    { dbAfter := sync.1, bookings := sync.2, cached := false }

/-- `BookingService.getBookingById`: resolve the booking from the cache by
document id and customer id, refresh its mutable fields from the external
system when the by-UUID fetch does not 404, and persist the refreshed
fields. The attachment lookup is orthogonal to every claim and omitted; the
Mongoose timestamp bump on the persisted update is likewise left implicit. -/
def getBookingById (db : List JobRecord) (ext : List SMJob) (bookingId customerId : Nat) :
    Except ApiError (List JobRecord × JobRecord) :=
  match db.find? (fun r => r.id == bookingId && r.customerId == customerId) with
  | none => .error .notFound
  | some job =>
    match ServiceM8.smFind ext job.servicem8Uuid with
    | some fresh =>
      .ok (replaceFirst (fun r => r.id == job.id)
            (fun _ => refreshJobRecord job fresh) db,
        refreshJobRecord job fresh)
    | none => .ok (db, job)

end BookingService

/-! ## Job service (externally-sourced generation) and legacy controller -/

/-- `CreateJobInput` of `JobService.createJob`. -/
structure CreateJobInput where
  job_address : String
  job_description : String
  scheduled_date : Option String
  status : Option String
deriving Repr, DecidableEq

/-- `UpdateJobInput` of `JobService.updateJob`. -/
structure UpdateJobInput where
  job_address : Option String
  job_description : Option String
  scheduled_date : Option String
  status : Option String
deriving Repr, DecidableEq

/-- `JobResult`, the mapped response of the job service. -/
structure JobResult where
  id : String
  servicem8Uuid : String
  jobNumber : Option String
  status : Option String
  address : Option String
  description : Option String
  scheduledDate : Option String
deriving Repr, DecidableEq

/-- `JobService.mapServiceM8JobToResult`. -/
def mapServiceM8JobToResult (job : SMJob) : JobResult :=
  { id := job.uuid
    servicem8Uuid := job.uuid
    jobNumber := job.generated_job_id
    status := job.status
    address := job.job_address
    description := job.job_description
    scheduledDate := job.scheduled_date }

/-- The external world `JobService.createJob` runs against: both stores,
explicit failure switches for the two external creates, and the UUIDs the
external system would assign to the created records. -/
structure ExtWorld where
  companies : List SMCompany
  jobs : List SMJob
  companyCreateFails : Bool
  jobCreateFails : Bool
  newCompanyUuid : String
  newJobUuid : String
deriving Repr, DecidableEq

namespace JobService

/-- The company name `JobService.createJob` derives for a customer:
first/last name, else email, else phone, else a constant. -/
def companyNameOf (c : Customer) : String :=
  jsOr (jsTrim (c.firstName.getD "" ++ " " ++ c.lastName.getD ""))
    (jsOrOpt c.email (jsOrOpt c.phone "Customer"))

/-- The job record the external client creates from the posted payload
(`status || 'Quote'`, `active: 1`, optional company and scheduled date). -/
def createdJobOf (newJobUuid : String) (input : CreateJobInput) (companyUuid : String) : SMJob :=
  { uuid := newJobUuid
    active := 1
    status := some (jsOr (input.status.getD "") "Quote")
    job_address := some input.job_address
    job_description := some input.job_description
    scheduled_date := truthy input.scheduled_date
    job_contact_name := none
    job_contact_email := none
    job_contact_mobile := none
    generated_job_id := none
    company_uuid := some companyUuid }

/-- Phase 2 of `JobService.createJob`: create the job in the external
system with the resolved company identifier and validate the response (the
client throws when the response carries no UUID, and re-fetches the created
record otherwise). -/
def createJobPhase2 (w : ExtWorld) (c : Customer) (input : CreateJobInput)
    (companyUuid : String) : ExtWorld × Customer × Except ApiError JobResult :=
  if w.jobCreateFails then
    (w, c, .error .jobCreationError)
  else if w.newJobUuid = "" then
    (w, c, .error .jobCreationError)
  else
    match ServiceM8.smFind (w.jobs ++ [createdJobOf w.newJobUuid input companyUuid])
        w.newJobUuid with
    | none =>
      ({ w with jobs := w.jobs ++ [createdJobOf w.newJobUuid input companyUuid] }, c,
        .error .jobCreationError)
    | some fetched =>
      ({ w with jobs := w.jobs ++ [createdJobOf w.newJobUuid input companyUuid] }, c,
        .ok (mapServiceM8JobToResult fetched))

/-- `JobService.createJob`: lazily create the external company when the
customer lacks one (fatal on failure, with the identifier persisted onto
the customer record on success), then create the job externally (fatal on
failure or on a response without a UUID) and map the re-fetched record.
The output always carries the world and customer as left by the call. -/
def createJob (w : ExtWorld) (c : Customer) (input : CreateJobInput) :
    ExtWorld × Customer × Except ApiError JobResult :=
  match c.servicem8ClientUuid with
  | none =>
    if w.companyCreateFails then
      (w, c, .error .jobCreationError)
    else
      let company : SMCompany :=
        { uuid := w.newCompanyUuid
          name := companyNameOf c
          email := c.email
          mobile := c.phone
          address := c.address
          active := 1 }
      let w1 := { w with companies := w.companies ++ [company] }
      let c1 := { c with servicem8ClientUuid := some w.newCompanyUuid }
      createJobPhase2 w1 c1 input w.newCompanyUuid
  | some companyUuid => createJobPhase2 w c input companyUuid

/-- The partial update payload `JobService.updateJob` builds: only fields
that are supplied and truthy are included. -/
def buildUpdateData (input : UpdateJobInput) : ServiceM8.JobUpdatePayload :=
  { job_address := truthy input.job_address
    job_description := truthy input.job_description
    scheduled_date := truthy input.scheduled_date
    status := truthy input.status
    company_uuid := none
    active := none }

/-- `JobService.updateJob` (with the full-payload external client): resolve
the job externally, mask inactive jobs as not found, reject foreign jobs as
forbidden, then write the merged payload and return the re-fetched job.
`extUpdateFails` is the explicit switch for a thrown external write. -/
def updateJob (ext : List SMJob) (extUpdateFails : Bool) (jobUuid : String)
    (input : UpdateJobInput) (c : Customer) :
    Except ApiError (List SMJob × JobResult) :=
  match ServiceM8.smFind ext jobUuid with
  | none => .error .notFound
  | some job =>
    if job.active = 0 then .error .notFound
    else if job.company_uuid ≠ c.servicem8ClientUuid then .error .forbidden
    else if extUpdateFails then .error .jobUpdateError
    else
      match ServiceM8.smFind (smApplyUpdate ext jobUuid (buildUpdateData input)) jobUuid with
      | none => .error .jobUpdateError
      | some updated =>
        .ok (smApplyUpdate ext jobUuid (buildUpdateData input),
          mapServiceM8JobToResult updated)

/-- The payload `JobService.deleteJob` posts: just `active: 0`. -/
def deactivatePayload : ServiceM8.JobUpdatePayload :=
  { job_address := none, job_description := none, scheduled_date := none,
    status := none, company_uuid := none, active := some 0 }

/-- `JobService.deleteJob`: resolve, mask inactive as not found, reject
foreign jobs, then deactivate the job externally; a thrown external update
is re-thrown as a deletion error (there is no local record in this
generation). -/
def deleteJob (ext : List SMJob) (extUpdateFails : Bool) (jobUuid : String) (c : Customer) :
    Except ApiError (List SMJob) :=
  match ServiceM8.smFind ext jobUuid with
  | none => .error .notFound
  | some job =>
    if job.active = 0 then .error .notFound
    else if job.company_uuid ≠ c.servicem8ClientUuid then .error .forbidden
    else if extUpdateFails then .error .jobDeletionError
    else .ok (smApplyUpdate ext jobUuid deactivatePayload)

end JobService

namespace JobController

/-- The payload the legacy controller posts on delete: `status:
'Cancelled'`. -/
def cancelPayload : ServiceM8.JobUpdatePayload :=
  { job_address := none, job_description := none, scheduled_date := none,
    status := some "Cancelled", company_uuid := none, active := none }

/-- `JobController.deleteJob` (cache-backed generation): resolve the local
record by id and customer id, attempt the external cancel but swallow its
failure, then delete the local record and report success. Returns the local
store, the external store and the HTTP outcome. -/
def deleteJob (db : List JobRecord) (ext : List SMJob) (extUpdateFails : Bool)
    (id customerId : Nat) : List JobRecord × List SMJob × Except ApiError Unit :=
  match db.find? (fun r => r.id == id && r.customerId == customerId) with
  | none => (db, ext, .error .notFound)
  | some job =>
    let ext2 := if extUpdateFails then ext else smApplyUpdate ext job.servicem8Uuid cancelPayload
    (db.filter (fun r => !(r.id == id)), ext2, .ok ())

end JobController

/-! ## Message service (ServiceM8-ownership generation) -/

/-- The mapped message response (`MessageResult`). -/
structure MessageResult where
  id : Nat
  message : String
  senderType : Sender
  createdAt : Nat
deriving Repr, DecidableEq

/-- Message store plus the clock that stamps `createdAt` (and is used as
the fresh ObjectId); it advances past every existing timestamp. -/
structure MsgState where
  msgs : List Msg
  clock : Nat
deriving Repr, DecidableEq

namespace MessageService

/-- The response projection of a message document. -/
def mapMsg (m : Msg) : MessageResult :=
  { id := m.id, message := m.message, senderType := m.senderType, createdAt := m.createdAt }

/-- `MessageService.getMessages`: ownership-check against the external job
(absent or inactive masked as not found, foreign rejected as forbidden),
then the job's messages oldest-first. -/
def getMessages (ext : List SMJob) (s : MsgState) (jobUuid : String) (c : Customer) :
    Except ApiError (List MessageResult) :=
  match ServiceM8.smFind ext jobUuid with
  | none => .error .notFound
  | some job =>
    if job.active = 0 then .error .notFound
    else if job.company_uuid ≠ c.servicem8ClientUuid then .error .forbidden
    else .ok ((MessageRepository.findByJobUuid s.msgs jobUuid).map mapMsg)

/-- `MessageService.sendMessage`: reject blank content, ownership-check as
in `getMessages`, then persist the trimmed message locally. The state is
returned unchanged on every failure. -/
def sendMessage (ext : List SMJob) (s : MsgState) (jobUuid : String) (c : Customer)
    (messageText : String) : MsgState × Except ApiError MessageResult :=
  let trimmedMessage := jsTrim messageText
  if trimmedMessage = "" then (s, .error .validationError)
  else
    match ServiceM8.smFind ext jobUuid with
    | none => (s, .error .notFound)
    | some job =>
      if job.active = 0 then (s, .error .notFound)
      else if job.company_uuid ≠ c.servicem8ClientUuid then (s, .error .forbidden)
      else
        let m : Msg :=
          { id := s.clock, jobUuid := jobUuid, customerId := c.id,
            message := trimmedMessage, senderType := .customer, createdAt := s.clock }
        ({ msgs := s.msgs ++ [m], clock := s.clock + 1 }, .ok (mapMsg m))

/-- The `sendMessage` route: the Zod schema `sendMessageSchema` (content
length between 1 and 1000) runs before the service. -/
def sendMessageRoute (ext : List SMJob) (s : MsgState) (jobUuid : String) (c : Customer)
    (messageText : String) : MsgState × Except ApiError MessageResult :=
  if messageText.length < 1 ∨ messageText.length > 1000 then (s, .error .validationError)
  else sendMessage ext s jobUuid c messageText

end MessageService

/-! ## Concrete sample data and frozen claim statements -/

/-- A customer of external company CO-1. -/
def custA : Customer :=
  { id := 1, email := some "a@x.com", phone := some "0400 111 222",
    firstName := some "Ann", lastName := some "Lee", address := none,
    servicem8ClientUuid := some "CO-1" }

/-- A customer not yet named in the external system. -/
def custNew : Customer :=
  { id := 3, email := some "new@x.com", phone := none, firstName := some "New",
    lastName := none, address := none, servicem8ClientUuid := none }

/-- A customer whose phone is absent (normalizes to no digits). -/
def custNoPhone : Customer :=
  { id := 6, email := some "a@x.com", phone := none, firstName := none,
    lastName := none, address := none, servicem8ClientUuid := some "CO-1" }

/-- An active external job owned by CO-1 with custA as contact. -/
def jobCO1 : SMJob :=
  { uuid := "J-1", active := 1, status := some "Quote",
    job_address := some "1 Main St", job_description := some "Fix tap",
    scheduled_date := none, job_contact_name := none,
    job_contact_email := some "a@x.com", job_contact_mobile := some "0400 111 222",
    generated_job_id := none, company_uuid := some "CO-1" }

/-- An active external job owned by CO-2. -/
def jobCO2 : SMJob :=
  { jobCO1 with
    uuid := "J-9", job_address := some "2 Side St",
    job_contact_email := some "b@y.com", job_contact_mobile := some "0400 999 888",
    company_uuid := some "CO-2" }

/-- An active external job whose contact is unrelated to every sample
customer but whose mobile contains digits. -/
def jobOtherContact : SMJob :=
  { jobCO2 with
    uuid := "J-77", job_contact_email := some "c@z.com",
    job_contact_mobile := some "0412 345 678" }

/-- An inactive external job owned by CO-1. -/
def jobInactive : SMJob :=
  { jobCO1 with uuid := "J-0", active := 0 }

/-- A cached record of job J-9, locally owned by customer 2. -/
def recJ9 : JobRecord :=
  { id := 9, servicem8Uuid := "J-9", customerId := 2, jobNumber := none,
    status := some "Quote", jobAddress := some "2 Side St", jobDescription := none,
    scheduledDate := none, contactName := none, contactEmail := none,
    contactPhone := none, rawData := none, updatedAt := 0 }

/-- A cached record whose job no longer exists externally. -/
def recU1 : JobRecord :=
  { recJ9 with id := 4, servicem8Uuid := "U-1", customerId := 7 }

/-- A cache record of customer 5 updated at time 600000. -/
def recFresh : JobRecord :=
  { recJ9 with id := 11, servicem8Uuid := "J-1", customerId := 5, updatedAt := 600000 }

/-- A 1000-character message. -/
def bigMessage : String := String.mk (List.replicate 1000 'x')

/-- A pristine external world assigning fresh identifiers CO-NEW / J-NEW. -/
def w5 : ExtWorld :=
  { companies := [], jobs := [], companyCreateFails := false,
    jobCreateFails := false, newCompanyUuid := "CO-NEW", newJobUuid := "J-NEW" }

/-- The createJob scenario input: address and description only. -/
def input5 : CreateJobInput :=
  { job_address := "1 Main St", job_description := "Fix tap",
    scheduled_date := none, status := none }

/-- An update input supplying only the address. -/
def input6 : UpdateJobInput :=
  { job_address := some "3 New St", job_description := none,
    scheduled_date := none, status := none }

/-- The booking-detail part of claim C1 as frozen: a booking-detail request
for an existing, active job owned by a different company fails with
Forbidden (not NotFound). -/
def bookingDetailForbiddenClaim : Prop :=
  ∀ (db : List JobRecord) (ext : List SMJob) (c : Customer) (r : JobRecord) (j : SMJob),
    r ∈ db → r.servicem8Uuid = j.uuid → ServiceM8.smFind ext j.uuid = some j →
    j.active ≠ 0 → j.company_uuid ≠ c.servicem8ClientUuid →
    BookingService.getBookingById db ext r.id c.id = .error .forbidden

/-- Claim C2 as frozen, read over the externally-sourced `deleteJob` its
sources cite: when resolution and the ownership check pass and the external
deactivate call throws, the call still reports success. -/
def deleteReportsSuccessClaim : Prop :=
  ∀ (ext : List SMJob) (u : String) (c : Customer) (j : SMJob),
    ServiceM8.smFind ext u = some j → j.active ≠ 0 →
    j.company_uuid = c.servicem8ClientUuid →
    ∃ ext2, JobService.deleteJob ext true u c = .ok ext2

/-- Claim C4 as frozen: every booking-detail call that resolves a job
returns the external system records current values of all mutable fields. -/
def detailNeverStaleClaim : Prop :=
  ∀ (db : List JobRecord) (ext : List SMJob) (bid cid : Nat)
    (dbOut : List JobRecord) (rec : JobRecord),
    BookingService.getBookingById db ext bid cid = .ok (dbOut, rec) →
    ∃ f, ServiceM8.smFind ext rec.servicem8Uuid = some f ∧
      rec.status = f.status ∧ rec.jobAddress = f.job_address ∧
      rec.jobDescription = f.job_description ∧ rec.scheduledDate = f.scheduled_date

/-! ## Library lemmas for the sort and containment helpers -/

/-- Every string contains the empty string, as with JavaScript `includes`. -/
theorem strIncludes_empty (hay : String) : strIncludes hay "" = true := by
  unfold strIncludes
  apply List.any_eq_true.mpr
  exact ⟨0, List.mem_range.mpr (Nat.succ_pos _), by simp [List.isPrefixOf]⟩

theorem mem_insertLe (le : α → α → Bool) (a x : α) (l : List α) :
    x ∈ insertLe le a l ↔ x = a ∨ x ∈ l := by
  induction l with
  | nil => simp [insertLe]
  | cons b t ih =>
    by_cases h : le a b
    · have he : insertLe le a (b :: t) = a :: b :: t := by simp [insertLe, h]
      rw [he]
      simp
    · have he : insertLe le a (b :: t) = b :: insertLe le a t := by simp [insertLe, h]
      rw [he]
      simp only [List.mem_cons, ih]
      tauto

theorem mem_sortByLe (le : α → α → Bool) (x : α) (l : List α) :
    x ∈ sortByLe le l ↔ x ∈ l := by
  induction l with
  | nil => simp [sortByLe]
  | cons a t ih => simp [sortByLe, mem_insertLe, ih]

theorem pairwise_insertLe (le : α → α → Bool)
    (total : ∀ a b, le a b = true ∨ le b a = true)
    (htrans : ∀ a b c, le a b = true → le b c = true → le a c = true)
    (a : α) (l : List α) (h : l.Pairwise (fun x y => le x y = true)) :
    (insertLe le a l).Pairwise (fun x y => le x y = true) := by
  induction l with
  | nil => simp [insertLe]
  | cons b t ih =>
    rcases List.pairwise_cons.mp h with ⟨hb, ht⟩
    by_cases hab : le a b
    · have he : insertLe le a (b :: t) = a :: b :: t := by simp [insertLe, hab]
      rw [he]
      refine List.pairwise_cons.mpr ⟨?_, h⟩
      intro y hy
      rcases List.mem_cons.mp hy with rfl | hyt
      · exact hab
      · exact htrans a b y hab (hb y hyt)
    · have hba : le b a = true := (total a b).resolve_left hab
      have he : insertLe le a (b :: t) = b :: insertLe le a t := by simp [insertLe, hab]
      rw [he]
      refine List.pairwise_cons.mpr ⟨?_, ih ht⟩
      intro y hy
      rcases (mem_insertLe le a y t).mp hy with rfl | hyt
      · exact hba
      · exact hb y hyt

theorem pairwise_sortByLe (le : α → α → Bool)
    (total : ∀ a b, le a b = true ∨ le b a = true)
    (htrans : ∀ a b c, le a b = true → le b c = true → le a c = true)
    (l : List α) :
    (sortByLe le l).Pairwise (fun x y => le x y = true) := by
  induction l with
  | nil => simp [sortByLe]
  | cons a t ih => exact pairwise_insertLe le total htrans a _ ih

theorem length_insertLe (le : α → α → Bool) (a : α) (l : List α) :
    (insertLe le a l).length = l.length + 1 := by
  induction l with
  | nil => rfl
  | cons b t ih =>
    by_cases h : le a b
    · simp [insertLe, h]
    · simp [insertLe, h, ih]

theorem length_sortByLe (le : α → α → Bool) (l : List α) :
    (sortByLe le l).length = l.length := by
  induction l with
  | nil => rfl
  | cons a t ih => simp [sortByLe, length_insertLe, ih]

/-- In a list sorted ascending by a numeric key, an element with a strictly
smaller key precedes one with a larger key: the pair is a sublist. -/
theorem pair_sublist_of_sorted (key : α → Nat) :
    ∀ (l : List α), l.Pairwise (fun x y => key x ≤ key y) →
      ∀ a b, a ∈ l → b ∈ l → key a < key b → List.Sublist [a, b] l := by
  intro l
  induction l with
  | nil => intro _ a b ha; simp at ha
  | cons x t ih =>
    intro hp a b ha hb hk
    rcases List.pairwise_cons.mp hp with ⟨hx, ht⟩
    by_cases hax : a = x
    · subst hax
      have hbt : b ∈ t := by
        rcases List.mem_cons.mp hb with rfl | h
        · exact absurd hk (lt_irrefl _)
        · exact h
      exact List.Sublist.cons₂ a (List.singleton_sublist.mpr hbt)
    · have hat : a ∈ t := (List.mem_cons.mp ha).resolve_left hax
      have hbt : b ∈ t := by
        rcases List.mem_cons.mp hb with rfl | h
        · exact absurd (hx a hat) (not_le.mpr hk)
        · exact h
      exact List.Sublist.cons x (ih ht a b hat hbt hk)

theorem replaceFirst_mem_of_find (p : α → Bool) (f : α → α) (l : List α) (r0 : α)
    (h : l.find? p = some r0) : f r0 ∈ replaceFirst p f l := by
  induction l with
  | nil => simp at h
  | cons x t ih =>
    by_cases hx : p x
    · rw [List.find?_cons_of_pos _ hx] at h
      cases h
      simp [replaceFirst, hx]
    · rw [List.find?_cons_of_neg _ hx] at h
      simp [replaceFirst, hx, ih h]

theorem mem_replaceFirst_of_not_p (p : α → Bool) (f : α → α) (l : List α) (r : α)
    (h : r ∈ l) (hp : ¬ p r = true) : r ∈ replaceFirst p f l := by
  induction l with
  | nil => simp at h
  | cons x t ih =>
    rcases List.mem_cons.mp h with rfl | hrt
    · have hx : ¬ p r = true := hp
      simp [replaceFirst, hx]
    · by_cases hx : p x
      · simp [replaceFirst, hx, hrt]
      · simp [replaceFirst, hx, ih hrt]

theorem find?_replaceFirst (p : α → Bool) (f : α → α) (l : List α) (r0 : α)
    (h : l.find? p = some r0) (hf : p (f r0) = true) :
    (replaceFirst p f l).find? p = some (f r0) := by
  induction l with
  | nil => simp at h
  | cons x t ih =>
    by_cases hx : p x
    · rw [List.find?_cons_of_pos _ hx] at h
      cases h
      simp [replaceFirst, hx, List.find?_cons_of_pos _ hf]
    · rw [List.find?_cons_of_neg _ hx] at h
      simp [replaceFirst, hx, List.find?_cons_of_neg _ hx, ih h]

theorem find?_append_of_none (p : α → Bool) (l1 l2 : List α)
    (h : l1.find? p = none) : (l1 ++ l2).find? p = l2.find? p := by
  induction l1 with
  | nil => rfl
  | cons x t ih =>
    by_cases hx : p x
    · rw [List.find?_cons_of_pos _ hx] at h
      exact absurd h (by simp)
    · rw [List.find?_cons_of_neg _ hx] at h
      rw [List.cons_append, List.find?_cons_of_neg _ hx]
      exact ih h

/-- The repository listing is sorted ascending by creation time. -/
theorem findByJobUuid_pairwise (msgs : List Msg) (u : String) :
    (MessageRepository.findByJobUuid msgs u).Pairwise
      (fun x y => x.createdAt ≤ y.createdAt) := by
  have hp := pairwise_sortByLe (fun a b : Msg => a.createdAt ≤ b.createdAt)
    (by
      intro a b
      rcases Nat.le_total a.createdAt b.createdAt with h | h
      · exact Or.inl (by simpa using h)
      · exact Or.inr (by simpa using h))
    (by
      intro a b c hab hbc
      have h1 : a.createdAt ≤ b.createdAt := by simpa using hab
      have h2 : b.createdAt ≤ c.createdAt := by simpa using hbc
      simpa using h1.trans h2)
    (msgs.filter fun m => m.jobUuid == u)
  exact hp.imp (fun h => by simpa using h)

/-- In the repository listing, a message with a strictly earlier creation
time precedes one created later. -/
theorem findByJobUuid_pair_sublist (msgs : List Msg) (u : String) (m1 m2 : Msg)
    (h1 : m1 ∈ MessageRepository.findByJobUuid msgs u)
    (h2 : m2 ∈ MessageRepository.findByJobUuid msgs u)
    (hlt : m1.createdAt < m2.createdAt) :
    List.Sublist [m1, m2] (MessageRepository.findByJobUuid msgs u) :=
  pair_sublist_of_sorted (fun m => m.createdAt) _
    (findByJobUuid_pairwise msgs u) m1 m2 h1 h2 hlt

/-- Membership in the repository listing is membership in the filtered
store. -/
theorem mem_findByJobUuid (msgs : List Msg) (u : String) (m : Msg) :
    m ∈ MessageRepository.findByJobUuid msgs u ↔ m ∈ msgs ∧ m.jobUuid = u := by
  unfold MessageRepository.findByJobUuid
  rw [mem_sortByLe]
  simp [List.mem_filter]

/-- The upsert leaves a record carrying the synced UUID stamped `now`. -/
theorem upsert_leaves_now (db : List JobRecord) (nid : Nat) (j : SMJob) (cid now : Nat) :
    ∃ r ∈ (JobRepository.upsertByServiceM8Uuid db nid j cid now).1,
      r.servicem8Uuid = j.uuid ∧ r.updatedAt = now := by
  unfold JobRepository.upsertByServiceM8Uuid
  cases h : db.find? (fun r => r.servicem8Uuid == j.uuid) with
  | some r0 =>
    exact ⟨JobRepository.applyJobData r0 j cid now,
      replaceFirst_mem_of_find _ _ db r0 h, rfl, rfl⟩
  | none =>
    exact ⟨JobRepository.newJobRecord nid j cid now, by simp, rfl, rfl⟩

/-- Upserting one job preserves the presence of a now-stamped record of any
UUID. -/
theorem upsert_preserves_now (db : List JobRecord) (nid : Nat) (j : SMJob) (cid now : Nat)
    (u : String) (h : ∃ r ∈ db, r.servicem8Uuid = u ∧ r.updatedAt = now) :
    ∃ r ∈ (JobRepository.upsertByServiceM8Uuid db nid j cid now).1,
      r.servicem8Uuid = u ∧ r.updatedAt = now := by
  by_cases hj : j.uuid = u
  · subst hj
    exact upsert_leaves_now db nid j cid now
  · obtain ⟨r, hr, hu, hn⟩ := h
    unfold JobRepository.upsertByServiceM8Uuid
    cases hf : db.find? (fun x => x.servicem8Uuid == j.uuid) with
    | some r0 =>
      refine ⟨r, ?_, hu, hn⟩
      apply mem_replaceFirst_of_not_p _ _ _ _ hr
      simp only [hu, beq_iff_eq]
      exact fun hh => hj hh.symm
    | none =>
      exact ⟨r, List.mem_append_left _ hr, hu, hn⟩

/-- Syncing preserves the presence of a now-stamped record of any UUID. -/
theorem sync_preserves_now (jobs : List SMJob) :
    ∀ (db : List JobRecord) (nid cid now : Nat) (u : String),
      (∃ r ∈ db, r.servicem8Uuid = u ∧ r.updatedAt = now) →
      ∃ r ∈ (BookingService.syncJobsToDatabase db nid jobs cid now).1,
        r.servicem8Uuid = u ∧ r.updatedAt = now := by
  induction jobs with
  | nil =>
    intro db nid cid now u h
    simpa [BookingService.syncJobsToDatabase] using h
  | cons j rest ih =>
    intro db nid cid now u h
    have hstep := ih (JobRepository.upsertByServiceM8Uuid db nid j cid now).1
      (nid + 1) cid now u (upsert_preserves_now db nid j cid now u h)
    simpa [BookingService.syncJobsToDatabase] using hstep

/-- Every synced job ends in the store as a record stamped `now`. -/
theorem sync_upserts_all (jobs : List SMJob) :
    ∀ (db : List JobRecord) (nid cid now : Nat) (j : SMJob), j ∈ jobs →
      ∃ r ∈ (BookingService.syncJobsToDatabase db nid jobs cid now).1,
        r.servicem8Uuid = j.uuid ∧ r.updatedAt = now := by
  induction jobs with
  | nil =>
    intro db nid cid now j h
    simp at h
  | cons x rest ih =>
    intro db nid cid now j h
    rcases List.mem_cons.mp h with rfl | hrest
    · have h1 := upsert_leaves_now db nid j cid now
      have h2 := sync_preserves_now rest _ (nid + 1) cid now j.uuid h1
      simpa [BookingService.syncJobsToDatabase] using h2
    · have h2 := ih (JobRepository.upsertByServiceM8Uuid db nid x cid now).1
        (nid + 1) cid now j hrest
      simpa [BookingService.syncJobsToDatabase] using h2

/-- Membership in the recent-jobs query. -/
theorem mem_findRecentJobs (db : List JobRecord) (cid now : Nat) (r : JobRecord) :
    r ∈ JobRepository.findRecentJobs db cid now ↔
      r ∈ db ∧ r.customerId = cid ∧ now - JobRepository.freshWindowMs ≤ r.updatedAt := by
  unfold JobRepository.findRecentJobs
  rw [mem_sortByLe]
  simp [List.mem_filter, and_assoc]

/-- The recent-jobs query is nonempty exactly when a fresh record of the
customer exists. -/
theorem findRecentJobs_nonempty_iff (db : List JobRecord) (cid now : Nat) :
    (JobRepository.findRecentJobs db cid now).length ≠ 0 ↔
      ∃ r ∈ db, r.customerId = cid ∧ now - JobRepository.freshWindowMs ≤ r.updatedAt := by
  rw [Ne, List.length_eq_zero]
  constructor
  · intro h
    obtain ⟨r, hr⟩ := List.exists_mem_of_ne_nil _ h
    obtain ⟨h1, h2, h3⟩ := (mem_findRecentJobs db cid now r).mp hr
    exact ⟨r, h1, h2, h3⟩
  · rintro ⟨r, h1, h2, h3⟩
    exact List.ne_nil_of_mem ((mem_findRecentJobs db cid now r).mpr ⟨h1, h2, h3⟩)

/-- Successful phase 2 of createJob: the job is appended to the external
store under the supplied company identifier and returned re-fetched. -/
theorem createJobPhase2_success (w : ExtWorld) (c : Customer) (input : CreateJobInput)
    (companyUuid : String) (h3 : w.jobCreateFails = false) (h4 : w.newJobUuid ≠ "")
    (h5 : ServiceM8.smFind w.jobs w.newJobUuid = none) :
    JobService.createJobPhase2 w c input companyUuid =
      ({ w with jobs := w.jobs ++ [JobService.createdJobOf w.newJobUuid input companyUuid] },
        c, .ok (mapServiceM8JobToResult
          (JobService.createdJobOf w.newJobUuid input companyUuid))) := by
  unfold JobService.createJobPhase2
  rw [if_neg (by simp [h3]), if_neg h4]
  have happ : ServiceM8.smFind
      (w.jobs ++ [JobService.createdJobOf w.newJobUuid input companyUuid]) w.newJobUuid =
      some (JobService.createdJobOf w.newJobUuid input companyUuid) := by
    unfold ServiceM8.smFind at h5 ⊢
    rw [find?_append_of_none _ _ _ h5]
    simp [JobService.createdJobOf]
  rw [happ]

/-- Replacing by a constant value puts that value in the list as soon as
some element satisfies the predicate. -/
theorem replaceFirst_const_mem (p : α → Bool) (y : α) (l : List α)
    (h : ∃ x ∈ l, p x = true) : y ∈ replaceFirst p (fun _ => y) l := by
  induction l with
  | nil => simp at h
  | cons a t ih =>
    by_cases hp : p a
    · simp [replaceFirst, hp]
    · obtain ⟨x, hx, hpx⟩ := h
      rcases List.mem_cons.mp hx with rfl | hxt
      · exact absurd hpx hp
      · simp [replaceFirst, hp, ih ⟨x, hxt, hpx⟩]

/-! ## Claim C9 -/

/-- C9: for every job UUID, when the external system answers the job-by-id
fetch with HTTP 404, the client getJobByUuid returns null (an absent-result
signal) rather than raising, while every other failure of that fetch raises
an error. -/
theorem c9_getJobByUuid_404_is_null :
    ServiceM8.getJobByUuidHttp (.failure (some 404)) = .ok none ∧
    (∀ s : Option Nat, s ≠ some 404 →
      ServiceM8.getJobByUuidHttp (.failure s) = .error .upstreamError) ∧
    (∀ j : SMJob, ServiceM8.getJobByUuidHttp (.success j) = .ok (some j)) := by
  refine ⟨rfl, ?_, fun j => rfl⟩
  intro s hs
  simp [ServiceM8.getJobByUuidHttp, hs]

/-- Witness for C9: a 500 response and a status-less network failure both
raise. -/
theorem c9_witness :
    ServiceM8.getJobByUuidHttp (.failure (some 500)) = .error .upstreamError ∧
    ServiceM8.getJobByUuidHttp (.failure none) = .error .upstreamError :=
  ⟨c9_getJobByUuid_404_is_null.2.1 (some 500) (by decide),
   c9_getJobByUuid_404_is_null.2.1 none (by decide)⟩

/-! ## Claim C10 -/

/-- C10: when a customer phone is absent or has no digits (normalizes to
the empty string), matchJobsToCustomer matches every job whose contact
mobile contains at least one digit, regardless of the job email; hence a
cache-miss listBookings for such a customer syncs and returns a job that
belongs to an unrelated contact. -/
theorem c10_empty_phone_overmatch :
    (∀ (jobs : List SMJob) (email phone : String) (job : SMJob) (p : String),
       digitsOf phone = "" → job ∈ jobs → job.job_contact_mobile = some p →
       digitsOf p ≠ "" → job ∈ ServiceM8.matchJobsToCustomer jobs email phone) ∧
    ((BookingService.getAllBookings [] 100 [jobOtherContact] 0 custNoPhone).cached = false ∧
     (BookingService.getAllBookings [] 100 [jobOtherContact] 0 custNoPhone).bookings.map
       (fun r => r.servicem8Uuid) = ["J-77"] ∧
     jobOtherContact.job_contact_email ≠ custNoPhone.email ∧
     ∃ r ∈ (BookingService.getAllBookings [] 100 [jobOtherContact] 0 custNoPhone).dbAfter,
       r.servicem8Uuid = "J-77") := by
  constructor
  · intro jobs email phone job p hphone hmem hmob hdig
    unfold ServiceM8.matchJobsToCustomer
    simp only [List.mem_filter]
    refine ⟨hmem, ?_⟩
    have hpm : (match job.job_contact_mobile with
        | none => false
        | some q => (digitsOf q != "" && strIncludes (digitsOf q) (digitsOf phone))) = true := by
      rw [hmob, hphone]
      simp [strIncludes_empty, hdig]
    simp only [hpm]
    exact Bool.or_true _
  · refine ⟨by decide, by decide, by decide, ?_⟩
    decide

/-- Witness for C10: the unrelated-contact job is matched for a customer
with no phone digits. -/
theorem c10_witness :
    jobOtherContact ∈ ServiceM8.matchJobsToCustomer [jobOtherContact] "zz@q.org" "" :=
  c10_empty_phone_overmatch.1 [jobOtherContact] "zz@q.org" "" jobOtherContact
    "0412 345 678" (by decide) (by simp) (by decide) (by decide)

/-! ## Claim C7 -/

/-- C7: sendMessage accepts a message of exactly 1000 characters (when not
blank after trimming); a 1001-character message is rejected with a
validation error; an empty or whitespace-only message is rejected with a
validation error and no message record is created; the failure is a
validation condition (HTTP 400), not a server fault. -/
theorem c7_sendMessage_validation_boundary :
    (∀ (ext : List SMJob) (s : MsgState) (u : String) (c : Customer) (text : String)
       (job : SMJob),
       text.length = 1000 → jsTrim text ≠ "" →
       ServiceM8.smFind ext u = some job → job.active ≠ 0 →
       job.company_uuid = c.servicem8ClientUuid →
       ∃ r, MessageService.sendMessageRoute ext s u c text =
         ({ msgs := s.msgs ++
              [{ id := s.clock, jobUuid := u, customerId := c.id,
                 message := jsTrim text, senderType := .customer, createdAt := s.clock }],
            clock := s.clock + 1 }, .ok r)) ∧
    (∀ (ext : List SMJob) (s : MsgState) (u : String) (c : Customer) (text : String),
       text.length = 1001 →
       MessageService.sendMessageRoute ext s u c text = (s, .error .validationError)) ∧
    (∀ (ext : List SMJob) (s : MsgState) (u : String) (c : Customer) (text : String),
       jsTrim text = "" →
       MessageService.sendMessageRoute ext s u c text = (s, .error .validationError)) ∧
    ApiError.validationError.statusCode = 400 := by
  refine ⟨?_, ?_, ?_, rfl⟩
  · intro ext s u c text job hlen htrim hfind hact hcomp
    refine ⟨MessageService.mapMsg
      { id := s.clock, jobUuid := u, customerId := c.id,
        message := jsTrim text, senderType := .customer, createdAt := s.clock }, ?_⟩
    unfold MessageService.sendMessageRoute MessageService.sendMessage
    rw [hlen]
    rw [if_neg (by omega : ¬ ((1000 : Nat) < 1 ∨ (1000 : Nat) > 1000))]
    rw [if_neg htrim, hfind]
    simp [hact, hcomp]
  · intro ext s u c text hlen
    unfold MessageService.sendMessageRoute
    rw [hlen]
    rw [if_pos (by omega)]
  · intro ext s u c text htrim
    by_cases hlen : text.length < 1 ∨ text.length > 1000
    · unfold MessageService.sendMessageRoute
      rw [if_pos hlen]
    · unfold MessageService.sendMessageRoute MessageService.sendMessage
      rw [if_neg hlen, if_pos htrim]

set_option maxRecDepth 40000 in
/-- Witness for C7: the 1000-character message is accepted from a clean
state against an owned active job, and a whitespace-only message is
rejected without touching the store. -/
theorem c7_witness :
    (∃ r, MessageService.sendMessageRoute [jobCO1] { msgs := [], clock := 0 } "J-1" custA
        bigMessage =
      ({ msgs := [{ id := 0, jobUuid := "J-1", customerId := custA.id,
                    message := jsTrim bigMessage, senderType := .customer, createdAt := 0 }],
         clock := 1 }, .ok r)) ∧
    MessageService.sendMessageRoute [jobCO1] { msgs := [], clock := 0 } "J-1" custA "  " =
      ({ msgs := [], clock := 0 }, .error .validationError) := by
  constructor
  · have h := c7_sendMessage_validation_boundary.1 [jobCO1] { msgs := [], clock := 0 }
      "J-1" custA bigMessage jobCO1 (by decide) (by decide) (by decide) (by decide) (by decide)
    simpa using h
  · exact c7_sendMessage_validation_boundary.2.2.1 [jobCO1] { msgs := [], clock := 0 }
      "J-1" custA "  " (by decide)

/-! ## Claim C8 -/

/-- C8: listMessages returns a job messages oldest-first (the listing is
sorted ascending by creation time, and any message created strictly earlier
appears before one created later); in particular after sending M1 and then
M2 for the same job, the two stored messages occur in that order in the
listing. -/
theorem c8_messages_oldest_first :
    (∀ (msgs : List Msg) (u : String),
       (MessageRepository.findByJobUuid msgs u).Pairwise
         (fun x y => x.createdAt ≤ y.createdAt)) ∧
    (∀ (msgs : List Msg) (u : String) (m1 m2 : Msg),
       m1 ∈ MessageRepository.findByJobUuid msgs u →
       m2 ∈ MessageRepository.findByJobUuid msgs u →
       m1.createdAt < m2.createdAt →
       List.Sublist [m1, m2] (MessageRepository.findByJobUuid msgs u)) ∧
    (∀ (ext : List SMJob) (s : MsgState) (u : String) (c : Customer)
       (t1 t2 : String) (job : SMJob),
       ServiceM8.smFind ext u = some job → job.active ≠ 0 →
       job.company_uuid = c.servicem8ClientUuid →
       jsTrim t1 ≠ "" → jsTrim t2 ≠ "" →
       ∃ m1 m2,
         (MessageService.sendMessage ext s u c t1).2 = .ok (MessageService.mapMsg m1) ∧
         (MessageService.sendMessage ext (MessageService.sendMessage ext s u c t1).1 u c
             t2).2 = .ok (MessageService.mapMsg m2) ∧
         m1.message = jsTrim t1 ∧ m2.message = jsTrim t2 ∧
         m1.createdAt < m2.createdAt ∧
         List.Sublist [m1, m2]
           (MessageRepository.findByJobUuid
             (MessageService.sendMessage ext (MessageService.sendMessage ext s u c t1).1 u c
               t2).1.msgs u)) := by
  refine ⟨findByJobUuid_pairwise, findByJobUuid_pair_sublist, ?_⟩
  intro ext s u c t1 t2 job hfind hact hcomp ht1 ht2
  have hstep : ∀ (s0 : MsgState) (t : String), jsTrim t ≠ "" →
      MessageService.sendMessage ext s0 u c t =
        ({ msgs := s0.msgs ++
             [{ id := s0.clock, jobUuid := u, customerId := c.id,
                message := jsTrim t, senderType := .customer, createdAt := s0.clock }],
           clock := s0.clock + 1 },
         .ok (MessageService.mapMsg
           { id := s0.clock, jobUuid := u, customerId := c.id,
             message := jsTrim t, senderType := .customer, createdAt := s0.clock })) := by
    intro s0 t ht
    unfold MessageService.sendMessage
    rw [if_neg ht, hfind]
    simp [hact, hcomp]
  rw [hstep s t1 ht1, hstep _ t2 ht2]
  refine ⟨_, _, rfl, rfl, rfl, rfl, Nat.lt_succ_self _, ?_⟩
  apply findByJobUuid_pair_sublist
  · rw [mem_findByJobUuid]
    constructor
    · simp
    · rfl
  · rw [mem_findByJobUuid]
    constructor
    · simp
    · rfl
  · exact Nat.lt_succ_self _

/-- Witness for C8: two concrete sends against an owned active job from a
clean state produce a listing with the first message before the second. -/
theorem c8_witness :
    ∃ m1 m2,
      (MessageService.sendMessage [jobCO1] { msgs := [], clock := 0 } "J-1" custA
          "hello").2 = .ok (MessageService.mapMsg m1) ∧
      (MessageService.sendMessage [jobCO1]
          (MessageService.sendMessage [jobCO1] { msgs := [], clock := 0 } "J-1" custA
            "hello").1 "J-1" custA "world").2 = .ok (MessageService.mapMsg m2) ∧
      m1.message = jsTrim "hello" ∧ m2.message = jsTrim "world" ∧
      m1.createdAt < m2.createdAt ∧
      List.Sublist [m1, m2]
        (MessageRepository.findByJobUuid
          (MessageService.sendMessage [jobCO1]
            (MessageService.sendMessage [jobCO1] { msgs := [], clock := 0 } "J-1" custA
              "hello").1 "J-1" custA "world").1.msgs "J-1") :=
  c8_messages_oldest_first.2.2 [jobCO1] { msgs := [], clock := 0 } "J-1" custA
    "hello" "world" jobCO1 (by decide) (by decide) (by decide) (by decide) (by decide)

/-! ## Claim C3 -/

/-- C3: listBookings serves from the local cache, with no external fetch,
exactly when some cached record of the customer was updated within the last
5 minutes; the cached result consists exactly of the customer records
inside the window (a stale record is never served as the cached result);
and on a cache miss the matched external jobs are upserted and returned. -/
theorem c3_cache_freshness_window :
    (∀ (db : List JobRecord) (nid : Nat) (ext : List SMJob) (now : Nat) (c : Customer),
       (BookingService.getAllBookings db nid ext now c).cached = true ↔
         ∃ r ∈ db, r.customerId = c.id ∧
           now - JobRepository.freshWindowMs ≤ r.updatedAt) ∧
    (∀ (db : List JobRecord) (nid : Nat) (ext : List SMJob) (now : Nat) (c : Customer)
       (r : JobRecord),
       (BookingService.getAllBookings db nid ext now c).cached = true →
       (r ∈ (BookingService.getAllBookings db nid ext now c).bookings ↔
         r ∈ db ∧ r.customerId = c.id ∧
           now - JobRepository.freshWindowMs ≤ r.updatedAt)) ∧
    (∀ (db : List JobRecord) (nid : Nat) (ext ext2 : List SMJob) (now : Nat)
       (c : Customer),
       (BookingService.getAllBookings db nid ext now c).cached = true →
       BookingService.getAllBookings db nid ext now c =
         BookingService.getAllBookings db nid ext2 now c) ∧
    (∀ (db : List JobRecord) (nid : Nat) (ext : List SMJob) (now : Nat) (c : Customer),
       (BookingService.getAllBookings db nid ext now c).cached = false →
       (BookingService.getAllBookings db nid ext now c).bookings =
         (BookingService.syncJobsToDatabase db nid
           (ServiceM8.matchJobsToCustomer ext (c.email.getD "") (c.phone.getD "")) c.id
           now).2 ∧
       ∀ j ∈ ServiceM8.matchJobsToCustomer ext (c.email.getD "") (c.phone.getD ""),
         ∃ r ∈ (BookingService.getAllBookings db nid ext now c).dbAfter,
           r.servicem8Uuid = j.uuid ∧ r.updatedAt = now) := by
  refine ⟨?_, ?_, ?_, ?_⟩
  · intro db nid ext now c
    unfold BookingService.getAllBookings
    by_cases hl : (JobRepository.findRecentJobs db c.id now).length ≠ 0
    · rw [if_pos hl]
      simpa using (findRecentJobs_nonempty_iff db c.id now).mp hl
    · rw [if_neg hl]
      simp only [Bool.false_eq_true, false_iff]
      intro h
      exact hl ((findRecentJobs_nonempty_iff db c.id now).mpr h)
  · intro db nid ext now c r hc
    unfold BookingService.getAllBookings at hc ⊢
    by_cases hl : (JobRepository.findRecentJobs db c.id now).length ≠ 0
    · rw [if_pos hl]
      simpa using mem_findRecentJobs db c.id now r
    · rw [if_neg hl] at hc
      simp at hc
  · intro db nid ext ext2 now c hc
    unfold BookingService.getAllBookings at hc ⊢
    by_cases hl : (JobRepository.findRecentJobs db c.id now).length ≠ 0
    · rw [if_pos hl, if_pos hl]
    · rw [if_neg hl] at hc
      simp at hc
  · intro db nid ext now c hc
    unfold BookingService.getAllBookings at hc ⊢
    by_cases hl : (JobRepository.findRecentJobs db c.id now).length ≠ 0
    · rw [if_pos hl] at hc
      simp at hc
    · rw [if_neg hl]
      refine ⟨rfl, ?_⟩
      intro j hj
      exact sync_upserts_all _ db nid c.id now j hj

/-- Witness for C3: a record updated at 600000 is fresh at 700000, so the
call is served from cache and returns exactly that record; and from an
empty cache the call is a miss whose result does not claim the cache. -/
theorem c3_witness :
    (BookingService.getAllBookings [recFresh] 50 [] 700000
      { custNoPhone with id := 5 }).cached = true ∧
    (recFresh ∈ (BookingService.getAllBookings [recFresh] 50 [] 700000
      { custNoPhone with id := 5 }).bookings ↔
      recFresh ∈ [recFresh] ∧ recFresh.customerId = 5 ∧
        700000 - JobRepository.freshWindowMs ≤ recFresh.updatedAt) := by
  constructor
  · exact (c3_cache_freshness_window.1 [recFresh] 50 [] 700000
      { custNoPhone with id := 5 }).mpr ⟨recFresh, by simp, by decide, by decide⟩
  · exact c3_cache_freshness_window.2.1 [recFresh] 50 [] 700000
      { custNoPhone with id := 5 } recFresh
      ((c3_cache_freshness_window.1 [recFresh] 50 [] 700000
        { custNoPhone with id := 5 }).mpr ⟨recFresh, by simp, by decide, by decide⟩)

/-! ## Claim C5 -/

/-- C5: for a customer lacking an external company identifier, createJob
creates the company first and persists the identifier onto the customer
record before creating the job (which is created under that identifier);
failure of the company creation is fatal and creates no job; and the
scenario input yields address "1 Main St" and, status being omitted,
status "Quote". -/
theorem c5_createJob_company_first :
    (∀ (w : ExtWorld) (c : Customer) (input : CreateJobInput),
       c.servicem8ClientUuid = none → w.companyCreateFails = true →
       JobService.createJob w c input = (w, c, .error .jobCreationError)) ∧
    (∀ (w : ExtWorld) (c : Customer) (input : CreateJobInput),
       c.servicem8ClientUuid = none → w.companyCreateFails = false →
       w.jobCreateFails = false → w.newJobUuid ≠ "" →
       ServiceM8.smFind w.jobs w.newJobUuid = none →
       (JobService.createJob w c input).2.1.servicem8ClientUuid = some w.newCompanyUuid ∧
       (∃ co ∈ (JobService.createJob w c input).1.companies, co.uuid = w.newCompanyUuid) ∧
       (JobService.createJob w c input).2.2 =
         .ok (mapServiceM8JobToResult
           (JobService.createdJobOf w.newJobUuid input w.newCompanyUuid)) ∧
       JobService.createdJobOf w.newJobUuid input w.newCompanyUuid ∈
         (JobService.createJob w c input).1.jobs ∧
       (JobService.createdJobOf w.newJobUuid input w.newCompanyUuid).company_uuid =
         some w.newCompanyUuid) ∧
    ((JobService.createJob w5 custNew input5).2.2 =
       .ok { id := "J-NEW", servicem8Uuid := "J-NEW", jobNumber := none,
             status := some "Quote", address := some "1 Main St",
             description := some "Fix tap", scheduledDate := none } ∧
     (JobService.createJob w5 custNew input5).2.1.servicem8ClientUuid = some "CO-NEW") := by
  refine ⟨?_, ?_, by decide, by decide⟩
  · intro w c input h1 h2
    unfold JobService.createJob
    rw [h1]
    simp [h2]
  · intro w c input h1 h2 h3 h4 h5
    unfold JobService.createJob
    rw [h1]
    rw [if_neg (by simp [h2])]
    rw [createJobPhase2_success _ _ _ _ (by simpa using h3) (by simpa using h4)
      (by simpa using h5)]
    refine ⟨rfl, ⟨_, List.mem_append_right _ (List.mem_singleton_self _), rfl⟩,
      by simp, by simp, rfl⟩

/-- Witness for C5: the fatal-company-failure branch at a concrete world,
and the success branch at the pristine world. -/
theorem c5_witness :
    JobService.createJob { w5 with companyCreateFails := true } custNew input5 =
      ({ w5 with companyCreateFails := true }, custNew, .error .jobCreationError) ∧
    (JobService.createJob w5 custNew input5).2.1.servicem8ClientUuid = some "CO-NEW" ∧
    JobService.createdJobOf w5.newJobUuid input5 "CO-NEW" ∈
      (JobService.createJob w5 custNew input5).1.jobs :=
  ⟨c5_createJob_company_first.1 { w5 with companyCreateFails := true } custNew input5
      (by decide) (by decide),
   (c5_createJob_company_first.2.1 w5 custNew input5 (by decide) (by decide) (by decide)
      (by decide) (by decide)).1,
   (c5_createJob_company_first.2.1 w5 custNew input5 (by decide) (by decide) (by decide)
      (by decide) (by decide)).2.2.2.1⟩

/-! ## Claim C6 -/

/-- C6: a successful updateJob (through the re-read-and-merge client)
changes only the fields explicitly supplied: every omitted field, and every
field outside the update surface, keeps its prior value on the external
record, and every other external record is untouched. -/
theorem c6_update_preserves_omitted_fields :
    ∀ (ext : List SMJob) (fails : Bool) (uuid : String) (input : UpdateJobInput)
      (c : Customer) (ext2 : List SMJob) (res : JobResult),
      JobService.updateJob ext fails uuid input c = .ok (ext2, res) →
      ∃ job, ServiceM8.smFind ext uuid = some job ∧
        ∃ updated, ServiceM8.smFind ext2 uuid = some updated ∧
          res = mapServiceM8JobToResult updated ∧
          (input.job_address = none → updated.job_address = job.job_address) ∧
          (input.job_description = none → updated.job_description = job.job_description) ∧
          (input.scheduled_date = none → updated.scheduled_date = job.scheduled_date) ∧
          (input.status = none → updated.status = job.status) ∧
          updated.uuid = job.uuid ∧
          updated.active = job.active ∧
          updated.company_uuid = job.company_uuid ∧
          updated.job_contact_name = job.job_contact_name ∧
          updated.job_contact_email = job.job_contact_email ∧
          updated.job_contact_mobile = job.job_contact_mobile ∧
          updated.generated_job_id = job.generated_job_id ∧
          (∀ other ∈ ext, other.uuid ≠ uuid → other ∈ ext2) := by
  intro ext fails uuid input c ext2 res h
  unfold JobService.updateJob at h
  cases hfind : ServiceM8.smFind ext uuid with
  | none =>
    rw [hfind] at h
    exact absurd h (by simp)
  | some job =>
    rw [hfind] at h
    simp only [] at h
    by_cases hact : job.active = 0
    · rw [if_pos hact] at h
      exact absurd h (by simp)
    · rw [if_neg hact] at h
      by_cases hcomp : job.company_uuid ≠ c.servicem8ClientUuid
      · rw [if_pos hcomp] at h
        exact absurd h (by simp)
      · rw [if_neg hcomp] at h
        by_cases hfails : fails
        · rw [if_pos hfails] at h
          exact absurd h (by simp)
        · rw [if_neg hfails] at h
          have hfind' : ext.find? (fun j => j.uuid == uuid) = some job := hfind
          have hp : ((ServiceM8.mergeJob job (JobService.buildUpdateData input)).uuid ==
              uuid) = true := by
            have hpj := List.find?_some hfind'
            simpa [ServiceM8.mergeJob] using hpj
          have hup : ServiceM8.smFind
              (smApplyUpdate ext uuid (JobService.buildUpdateData input)) uuid =
              some (ServiceM8.mergeJob job (JobService.buildUpdateData input)) :=
            find?_replaceFirst _ _ ext job hfind' hp
          rw [hup] at h
          simp only [Except.ok.injEq, Prod.mk.injEq] at h
          obtain ⟨hext2, hres⟩ := h
          subst hext2
          subst hres
          refine ⟨job, rfl, ServiceM8.mergeJob job (JobService.buildUpdateData input),
            hup, rfl, ?_, ?_, ?_, ?_, rfl, ?_, ?_, rfl, rfl, rfl, rfl, ?_⟩
          · intro hna
            simp [ServiceM8.mergeJob, JobService.buildUpdateData, truthy, hna]
          · intro hnd
            simp [ServiceM8.mergeJob, JobService.buildUpdateData, truthy, hnd]
          · intro hns
            simp [ServiceM8.mergeJob, JobService.buildUpdateData, truthy, hns]
          · intro hnt
            simp [ServiceM8.mergeJob, JobService.buildUpdateData, truthy, hnt]
          · simp [ServiceM8.mergeJob, JobService.buildUpdateData]
          · simp [ServiceM8.mergeJob, JobService.buildUpdateData]
          · intro other hmem hne
            apply mem_replaceFirst_of_not_p _ _ _ _ hmem
            simp [hne]

/-- Witness for C6: a concrete successful address-only update preserves the
description, status, schedule, contacts and ownership of J-1. -/
theorem c6_witness :
    ∃ job, ServiceM8.smFind [jobCO1] "J-1" = some job ∧
      ∃ updated,
        ServiceM8.smFind (smApplyUpdate [jobCO1] "J-1"
          (JobService.buildUpdateData input6)) "J-1" = some updated ∧
        mapServiceM8JobToResult
            (ServiceM8.mergeJob jobCO1 (JobService.buildUpdateData input6)) =
          mapServiceM8JobToResult updated ∧
        (input6.job_address = none → updated.job_address = job.job_address) ∧
        (input6.job_description = none → updated.job_description = job.job_description) ∧
        (input6.scheduled_date = none → updated.scheduled_date = job.scheduled_date) ∧
        (input6.status = none → updated.status = job.status) ∧
        updated.uuid = job.uuid ∧
        updated.active = job.active ∧
        updated.company_uuid = job.company_uuid ∧
        updated.job_contact_name = job.job_contact_name ∧
        updated.job_contact_email = job.job_contact_email ∧
        updated.job_contact_mobile = job.job_contact_mobile ∧
        updated.generated_job_id = job.generated_job_id ∧
        (∀ other ∈ [jobCO1], other.uuid ≠ "J-1" →
          other ∈ smApplyUpdate [jobCO1] "J-1" (JobService.buildUpdateData input6)) := by
  have h := c6_update_preserves_omitted_fields [jobCO1] false "J-1" input6 custA
    (smApplyUpdate [jobCO1] "J-1" (JobService.buildUpdateData input6))
    (mapServiceM8JobToResult (ServiceM8.mergeJob jobCO1 (JobService.buildUpdateData input6)))
    (by decide)
  obtain ⟨job, h1, updated, h2, h3, rest⟩ := h
  exact ⟨job, h1, updated, h2, h3, rest⟩

/-! ## Claim C1 -/

/-- C1 counterexample: a booking-detail request by the CO-1 customer for an
existing, active job owned by CO-2 answers NotFound, not Forbidden, so the
claim as frozen is false. -/
theorem c1_counterexample : ¬ bookingDetailForbiddenClaim := by
  intro h
  have hres := h [recJ9] [jobCO2] custA recJ9 jobCO2 (by simp) (by decide) (by decide)
    (by decide) (by decide)
  exact absurd hres (by decide)

/-- C1 (amended): for the ServiceM8-resolved operations (job update, job
delete, message list, message send) the property holds as claimed — absent
job NotFound, inactive job NotFound regardless of ownership, active foreign
job Forbidden, matching identifiers admit the operation; booking detail
instead resolves through the local cache by record id and customer id,
performs no active-flag or company-identifier check, answers NotFound
whenever that lookup misses (including for an active job of another
company), and never answers Forbidden. -/
theorem c1_ownership_guard_amended :
    (∀ (ext : List SMJob) (fails : Bool) (u : String) (input : UpdateJobInput)
       (c : Customer), ServiceM8.smFind ext u = none →
       JobService.updateJob ext fails u input c = .error .notFound) ∧
    (∀ (ext : List SMJob) (fails : Bool) (u : String) (input : UpdateJobInput)
       (c : Customer) (job : SMJob), ServiceM8.smFind ext u = some job →
       job.active = 0 →
       JobService.updateJob ext fails u input c = .error .notFound) ∧
    (∀ (ext : List SMJob) (fails : Bool) (u : String) (input : UpdateJobInput)
       (c : Customer) (job : SMJob), ServiceM8.smFind ext u = some job →
       job.active ≠ 0 → job.company_uuid ≠ c.servicem8ClientUuid →
       JobService.updateJob ext fails u input c = .error .forbidden) ∧
    (∀ (ext : List SMJob) (u : String) (input : UpdateJobInput) (c : Customer)
       (job : SMJob), ServiceM8.smFind ext u = some job → job.active ≠ 0 →
       job.company_uuid = c.servicem8ClientUuid →
       ∃ out, JobService.updateJob ext false u input c = .ok out) ∧
    (∀ (ext : List SMJob) (fails : Bool) (u : String) (c : Customer),
       ServiceM8.smFind ext u = none →
       JobService.deleteJob ext fails u c = .error .notFound) ∧
    (∀ (ext : List SMJob) (fails : Bool) (u : String) (c : Customer) (job : SMJob),
       ServiceM8.smFind ext u = some job → job.active = 0 →
       JobService.deleteJob ext fails u c = .error .notFound) ∧
    (∀ (ext : List SMJob) (fails : Bool) (u : String) (c : Customer) (job : SMJob),
       ServiceM8.smFind ext u = some job → job.active ≠ 0 →
       job.company_uuid ≠ c.servicem8ClientUuid →
       JobService.deleteJob ext fails u c = .error .forbidden) ∧
    (∀ (ext : List SMJob) (u : String) (c : Customer) (job : SMJob),
       ServiceM8.smFind ext u = some job → job.active ≠ 0 →
       job.company_uuid = c.servicem8ClientUuid →
       ∃ out, JobService.deleteJob ext false u c = .ok out) ∧
    (∀ (ext : List SMJob) (s : MsgState) (u : String) (c : Customer),
       ServiceM8.smFind ext u = none →
       MessageService.getMessages ext s u c = .error .notFound) ∧
    (∀ (ext : List SMJob) (s : MsgState) (u : String) (c : Customer) (job : SMJob),
       ServiceM8.smFind ext u = some job → job.active = 0 →
       MessageService.getMessages ext s u c = .error .notFound) ∧
    (∀ (ext : List SMJob) (s : MsgState) (u : String) (c : Customer) (job : SMJob),
       ServiceM8.smFind ext u = some job → job.active ≠ 0 →
       job.company_uuid ≠ c.servicem8ClientUuid →
       MessageService.getMessages ext s u c = .error .forbidden) ∧
    (∀ (ext : List SMJob) (s : MsgState) (u : String) (c : Customer) (job : SMJob),
       ServiceM8.smFind ext u = some job → job.active ≠ 0 →
       job.company_uuid = c.servicem8ClientUuid →
       ∃ out, MessageService.getMessages ext s u c = .ok out) ∧
    (∀ (ext : List SMJob) (s : MsgState) (u : String) (c : Customer) (t : String),
       jsTrim t ≠ "" → ServiceM8.smFind ext u = none →
       (MessageService.sendMessage ext s u c t).2 = .error .notFound) ∧
    (∀ (ext : List SMJob) (s : MsgState) (u : String) (c : Customer) (t : String)
       (job : SMJob), jsTrim t ≠ "" → ServiceM8.smFind ext u = some job →
       job.active = 0 →
       (MessageService.sendMessage ext s u c t).2 = .error .notFound) ∧
    (∀ (ext : List SMJob) (s : MsgState) (u : String) (c : Customer) (t : String)
       (job : SMJob), jsTrim t ≠ "" → ServiceM8.smFind ext u = some job →
       job.active ≠ 0 → job.company_uuid ≠ c.servicem8ClientUuid →
       (MessageService.sendMessage ext s u c t).2 = .error .forbidden) ∧
    (∀ (ext : List SMJob) (s : MsgState) (u : String) (c : Customer) (t : String)
       (job : SMJob), jsTrim t ≠ "" → ServiceM8.smFind ext u = some job →
       job.active ≠ 0 → job.company_uuid = c.servicem8ClientUuid →
       ∃ out, (MessageService.sendMessage ext s u c t).2 = .ok out) ∧
    (∀ (db : List JobRecord) (ext : List SMJob) (bid cid : Nat),
       BookingService.getBookingById db ext bid cid ≠ .error .forbidden) ∧
    (∀ (db : List JobRecord) (ext : List SMJob) (bid cid : Nat),
       db.find? (fun r => r.id == bid && r.customerId == cid) = none →
       BookingService.getBookingById db ext bid cid = .error .notFound) ∧
    (∀ (db : List JobRecord) (ext : List SMJob) (bid cid : Nat) (r : JobRecord),
       db.find? (fun r => r.id == bid && r.customerId == cid) = some r →
       ∃ out, BookingService.getBookingById db ext bid cid = .ok out) := by
  refine ⟨?_, ?_, ?_, ?_, ?_, ?_, ?_, ?_, ?_, ?_, ?_, ?_, ?_, ?_, ?_, ?_, ?_, ?_, ?_⟩
  · intro ext fails u input c hf
    unfold JobService.updateJob
    rw [hf]
  · intro ext fails u input c job hf ha
    unfold JobService.updateJob
    rw [hf]
    simp [ha]
  · intro ext fails u input c job hf ha hc
    unfold JobService.updateJob
    rw [hf]
    simp [ha, hc]
  · intro ext u input c job hf ha hc
    unfold JobService.updateJob
    rw [hf]
    have hfind' : ext.find? (fun j => j.uuid == u) = some job := hf
    have hp : ((ServiceM8.mergeJob job (JobService.buildUpdateData input)).uuid == u) =
        true := by
      have hpj := List.find?_some hfind'
      simpa [ServiceM8.mergeJob] using hpj
    have hup : ServiceM8.smFind
        (smApplyUpdate ext u (JobService.buildUpdateData input)) u =
        some (ServiceM8.mergeJob job (JobService.buildUpdateData input)) :=
      find?_replaceFirst _ _ ext job hfind' hp
    simp only []
    rw [if_neg ha, if_neg (by simp [hc]), if_neg (show ¬ (false = true) by simp)]
    rw [hup]
    exact ⟨_, rfl⟩
  · intro ext fails u c hf
    unfold JobService.deleteJob
    rw [hf]
  · intro ext fails u c job hf ha
    unfold JobService.deleteJob
    rw [hf]
    simp [ha]
  · intro ext fails u c job hf ha hc
    unfold JobService.deleteJob
    rw [hf]
    simp [ha, hc]
  · intro ext u c job hf ha hc
    unfold JobService.deleteJob
    rw [hf]
    simp only []
    rw [if_neg ha, if_neg (by simp [hc]), if_neg (show ¬ (false = true) by simp)]
    exact ⟨_, rfl⟩
  · intro ext s u c hf
    unfold MessageService.getMessages
    rw [hf]
  · intro ext s u c job hf ha
    unfold MessageService.getMessages
    rw [hf]
    simp [ha]
  · intro ext s u c job hf ha hc
    unfold MessageService.getMessages
    rw [hf]
    simp [ha, hc]
  · intro ext s u c job hf ha hc
    unfold MessageService.getMessages
    rw [hf]
    simp only []
    rw [if_neg ha, if_neg (by simp [hc])]
    exact ⟨_, rfl⟩
  · intro ext s u c t ht hf
    unfold MessageService.sendMessage
    rw [if_neg ht, hf]
  · intro ext s u c t job ht hf ha
    unfold MessageService.sendMessage
    rw [if_neg ht, hf]
    simp [ha]
  · intro ext s u c t job ht hf ha hc
    unfold MessageService.sendMessage
    rw [if_neg ht, hf]
    simp [ha, hc]
  · intro ext s u c t job ht hf ha hc
    unfold MessageService.sendMessage
    rw [if_neg ht, hf]
    simp only []
    rw [if_neg ha, if_neg (by simp [hc])]
    exact ⟨_, rfl⟩
  · intro db ext bid cid
    unfold BookingService.getBookingById
    cases hf : db.find? (fun r => r.id == bid && r.customerId == cid) with
    | none => simp
    | some job =>
      simp only []
      cases hfr : ServiceM8.smFind ext job.servicem8Uuid with
      | none => simp [hfr]
      | some fresh => simp [hfr]
  · intro db ext bid cid hf
    unfold BookingService.getBookingById
    rw [hf]
  · intro db ext bid cid r hf
    unfold BookingService.getBookingById
    rw [hf]
    simp only []
    cases hfr : ServiceM8.smFind ext r.servicem8Uuid with
    | none => exact ⟨_, rfl⟩
    | some fresh => exact ⟨_, rfl⟩

/-- Witness for C1 (amended): concrete guard outcomes — foreign active job
forbidden on update, inactive owned job masked as NotFound on delete,
missing job NotFound on message list, owned active job admitted for message
send, and mismatched booking detail answered NotFound. -/
theorem c1_witness :
    JobService.updateJob [jobCO2] false "J-9" input6 custA = .error .forbidden ∧
    JobService.deleteJob [jobInactive] false "J-0" custA = .error .notFound ∧
    MessageService.getMessages [] { msgs := [], clock := 0 } "J-404" custA =
      .error .notFound ∧
    (∃ out, (MessageService.sendMessage [jobCO1] { msgs := [], clock := 0 } "J-1" custA
      "hi").2 = .ok out) ∧
    BookingService.getBookingById [recJ9] [jobCO2] 9 1 = .error .notFound := by
  have h := c1_ownership_guard_amended
  refine ⟨?_, ?_, ?_, ?_, ?_⟩
  · exact h.2.2.1 [jobCO2] false "J-9" input6 custA jobCO2 (by decide) (by decide)
      (by decide)
  · exact h.2.2.2.2.2.1 [jobInactive] false "J-0" custA jobInactive (by decide) (by decide)
  · exact h.2.2.2.2.2.2.2.2.1 [] { msgs := [], clock := 0 } "J-404" custA (by decide)
  · exact h.2.2.2.2.2.2.2.2.2.2.2.2.2.2.2.1 [jobCO1] { msgs := [], clock := 0 } "J-1"
      custA "hi" jobCO1 (by decide) (by decide) (by decide) (by decide)
  · exact h.2.2.2.2.2.2.2.2.2.2.2.2.2.2.2.2.2.1 [recJ9] [jobCO2] 9 1 (by decide)

/-! ## Claim C2 -/

/-- C2 counterexample: with the external deactivate call throwing, the
externally-sourced deleteJob on an owned active job reports a deletion
error, not success, so the claim as frozen is false. -/
theorem c2_counterexample : ¬ deleteReportsSuccessClaim := by
  intro h
  obtain ⟨ext2, hres⟩ := h [jobCO1] "J-1" custA jobCO1 (by decide) (by decide) (by decide)
  have hev : JobService.deleteJob [jobCO1] true "J-1" custA =
      .error .jobDeletionError := by decide
  rw [hev] at hres
  simp at hres

/-- C2 (amended): in the cache-backed controller generation a failing
external cancel does not block deletion — the resolved local record is
removed and the call reports success whatever the external outcome — while
in the externally-sourced service generation, which keeps no local record,
a failing external deactivate is fatal and surfaces as a deletion error. -/
theorem c2_delete_best_effort_amended :
    (∀ (db : List JobRecord) (ext : List SMJob) (fails : Bool) (id cid : Nat)
       (r : JobRecord),
       db.find? (fun x => x.id == id && x.customerId == cid) = some r →
       (JobController.deleteJob db ext fails id cid).2.2 = .ok () ∧
       ∀ x ∈ (JobController.deleteJob db ext fails id cid).1, x.id ≠ id) ∧
    (∀ (ext : List SMJob) (u : String) (c : Customer) (job : SMJob),
       ServiceM8.smFind ext u = some job → job.active ≠ 0 →
       job.company_uuid = c.servicem8ClientUuid →
       JobService.deleteJob ext true u c = .error .jobDeletionError) := by
  constructor
  · intro db ext fails id cid r hf
    unfold JobController.deleteJob
    rw [hf]
    refine ⟨rfl, ?_⟩
    intro x hx
    have := List.mem_filter.mp hx
    simpa using this.2
  · intro ext u c job hf ha hc
    unfold JobService.deleteJob
    rw [hf]
    simp only []
    rw [if_neg ha, if_neg (by simp [hc])]
    simp

/-- Witness for C2 (amended): a concrete controller delete with a throwing
external cancel still removes the record and reports success, while the
service generation surfaces the deletion error. -/
theorem c2_witness :
    ((JobController.deleteJob [recJ9] [jobCO2] true 9 2).2.2 = .ok () ∧
     ∀ x ∈ (JobController.deleteJob [recJ9] [jobCO2] true 9 2).1, x.id ≠ 9) ∧
    JobService.deleteJob [jobCO1] true "J-1" custA = .error .jobDeletionError := by
  constructor
  · exact c2_delete_best_effort_amended.1 [recJ9] [jobCO2] true 9 2 recJ9 (by decide)
  · exact c2_delete_best_effort_amended.2 [jobCO1] "J-1" custA jobCO1 (by decide)
      (by decide) (by decide)

/-! ## Claim C4 -/

/-- C4 counterexample: booking detail for a cached record whose job is
absent from the external system succeeds and serves the cached fields, so
the returned record matches no current external values and the claim as
frozen is false. -/
theorem c4_counterexample : ¬ detailNeverStaleClaim := by
  intro h
  obtain ⟨f, hf, _⟩ := h [recU1] [] recU1.id recU1.customerId [recU1] recU1 (by decide)
  simp [ServiceM8.smFind] at hf

/-- C4 (amended): when the external by-UUID fetch returns the job, the
returned detail carries exactly the fresh external values of the mutable
fields and the refreshed record is persisted into the cache; when the
external system answers not-found, the cached record is returned unchanged
and the cache is not updated. -/
theorem c4_detail_refresh_amended :
    (∀ (db : List JobRecord) (ext : List SMJob) (bid cid : Nat) (r : JobRecord)
       (fresh : SMJob),
       db.find? (fun x => x.id == bid && x.customerId == cid) = some r →
       ServiceM8.smFind ext r.servicem8Uuid = some fresh →
       BookingService.getBookingById db ext bid cid =
         .ok (replaceFirst (fun x => x.id == r.id) (fun _ => refreshJobRecord r fresh) db,
           refreshJobRecord r fresh) ∧
       refreshJobRecord r fresh ∈
         replaceFirst (fun x => x.id == r.id) (fun _ => refreshJobRecord r fresh) db ∧
       (refreshJobRecord r fresh).status = fresh.status ∧
       (refreshJobRecord r fresh).jobAddress = fresh.job_address ∧
       (refreshJobRecord r fresh).jobDescription = fresh.job_description ∧
       (refreshJobRecord r fresh).scheduledDate = fresh.scheduled_date ∧
       (refreshJobRecord r fresh).rawData = some fresh) ∧
    (∀ (db : List JobRecord) (ext : List SMJob) (bid cid : Nat) (r : JobRecord),
       db.find? (fun x => x.id == bid && x.customerId == cid) = some r →
       ServiceM8.smFind ext r.servicem8Uuid = none →
       BookingService.getBookingById db ext bid cid = .ok (db, r)) := by
  constructor
  · intro db ext bid cid r fresh hf hfr
    refine ⟨?_, ?_, rfl, rfl, rfl, rfl, rfl⟩
    · unfold BookingService.getBookingById
      rw [hf]
      simp only []
      rw [hfr]
    · apply replaceFirst_const_mem
      exact ⟨r, List.mem_of_find?_eq_some hf, by simp⟩
  · intro db ext bid cid r hf hfr
    unfold BookingService.getBookingById
    rw [hf]
    simp only []
    rw [hfr]

/-- Witness for C4 (amended): a concrete detail call refreshes the cached
J-9 record from the external store and persists it, and a concrete call
whose job is externally absent returns the cached record unchanged. -/
theorem c4_witness :
    (BookingService.getBookingById [recJ9] [jobCO2] 9 2 =
       .ok (replaceFirst (fun x => x.id == recJ9.id)
             (fun _ => refreshJobRecord recJ9 jobCO2) [recJ9],
         refreshJobRecord recJ9 jobCO2) ∧
     refreshJobRecord recJ9 jobCO2 ∈
       replaceFirst (fun x => x.id == recJ9.id)
         (fun _ => refreshJobRecord recJ9 jobCO2) [recJ9] ∧
     (refreshJobRecord recJ9 jobCO2).status = jobCO2.status ∧
     (refreshJobRecord recJ9 jobCO2).jobAddress = jobCO2.job_address ∧
     (refreshJobRecord recJ9 jobCO2).jobDescription = jobCO2.job_description ∧
     (refreshJobRecord recJ9 jobCO2).scheduledDate = jobCO2.scheduled_date ∧
     (refreshJobRecord recJ9 jobCO2).rawData = some jobCO2) ∧
    BookingService.getBookingById [recU1] [] 4 7 = .ok ([recU1], recU1) := by
  constructor
  · exact c4_detail_refresh_amended.1 [recJ9] [jobCO2] 9 2 recJ9 jobCO2 (by decide)
      (by decide)
  · exact c4_detail_refresh_amended.2 [recU1] [] 4 7 recU1 (by decide) (by decide)

end PortalSpec
